import Mathlib

/-!
# Multi-fidelity experiment loop: shallow embedding

This file embeds the executable content of
`docs/source/examples/notebooks/multi_fidelity.ipynb`:

* the configuration constants of cell 4 (`COST_BUDGET`, `NUM_INIT_DESIGN`,
  `NUM_CHEAP`),
* the lookup-table oracle `measure` of cell 7,
* the experiment loop of cell 9 (fidelity cadence, per-sample measurement
  and observation recording, steady-state greedy recommendation, init-design
  convergence check).

Python floats appear only as exact literals compared by `==`, so measurements
and fidelities are embedded as rationals (`ℚ`).  The external planner
(`MultiFidelityPlanner` from the `atlas` package, not part of the provided
source) is an abstract parameter: a pair of history-dependent functions that
may fail, per the narrow interface the notebook uses (`set_ask_fidelity` +
`recommend`, and `recommend_target_fidelity`).  The loop may fail to
terminate, so the while loop is run on explicit fuel; exhausting the fuel
returns the `running` result, distinct from the loop's own exits.
-/

namespace MultiFidelity

/-- A parameter assignment produced by the planner: the fidelity parameter
`s` plus the perovskite component parameters of the dataset's parameter
space (`organic`, `cation`, `anion`). -/
structure Sample where
  s : ℚ
  organic : String
  cation : String
  anion : String
deriving DecidableEq, Repr

/-- One entry of the pickled lookup table
`LOOKUP[organic][cation][anion]`: the two bandgap arrays read by `measure`. -/
structure LookupEntry where
  bandgap_hse06 : List ℚ
  bandgap_gga : List ℚ
deriving DecidableEq, Repr

/-- Python's `str.capitalize`: first character upper-cased, the rest
lower-cased (applied to `params.organic` in `measure`). -/
def pyCapitalize (s : String) : String :=
  match s.data with
  | [] => ""
  | c :: cs => String.mk (c.toUpper :: cs.map Char.toLower)

/-- The rational value of the Python float literal `0.1`, the low
fidelity.  It is written as a raw `Rat` literal because `(1 : ℚ)/10` is
built with `Rat.inv`, which the kernel cannot reduce; `qTenth_eq_div`
identifies the two spellings. -/
def qTenth : ℚ := ⟨1, 10, by decide, by decide⟩

/-- The rational value of the Python float literal `0.8`, the spec's
example `ConvergenceTarget`, as a raw kernel-computable `Rat` literal. -/
def qFourFifths : ℚ := ⟨4, 5, by decide, by decide⟩

theorem qTenth_eq_div : qTenth = 1/10 := by
  norm_num [qTenth, Rat.mk'_eq_divInt, Rat.divInt_eq_div]

theorem qFourFifths_eq_div : qFourFifths = 4/5 := by
  norm_num [qFourFifths, Rat.mk'_eq_divInt, Rat.divInt_eq_div]

/-- The ways `measure` can raise instead of returning:
a `KeyError` from the chained dictionary lookup (a sample outside the
table's domain), a `ValueError` from `np.amin` on an empty array, and the
`UnboundLocalError` from `return measurement` when neither fidelity branch
assigned `measurement`. -/
inductive MeasureErr where
  | lookupError
  | emptyArrayError
  | unboundLocalError
deriving DecidableEq, Repr

/-- Cell 7's oracle:

```python
def measure(params, s):
    if s == 1.0:
        measurement = np.amin(LOOKUP[params.organic.capitalize()]
                              [params.cation][params.anion]['bandgap_hse06'])
    elif s == 0.1:
        measurement = np.amin(LOOKUP[params.organic.capitalize()]
                              [params.cation][params.anion]['bandgap_gga'])
    return measurement
```

The pickled table is abstracted as a partial map from the three key strings
to a `LookupEntry` (`none` models the `KeyError` of a missing key). -/
def measure (lookup : String → String → String → Option LookupEntry)
    (params : Sample) (s : ℚ) : Except MeasureErr ℚ :=
  if s = 1 then
    match lookup (pyCapitalize params.organic) params.cation params.anion with
    | none => .error .lookupError
    | some entry =>
      match entry.bandgap_hse06.min? with
      | none => .error .emptyArrayError
      | some v => .ok v
  else if s = qTenth then
    match lookup (pyCapitalize params.organic) params.cation params.anion with
    | none => .error .lookupError
    | some entry =>
      match entry.bandgap_gga.min? with
      | none => .error .emptyArrayError
      | some v => .ok v
  else
    .error .unboundLocalError

/-- The loop's configuration.  `costBudget`, `numInitDesign` and `numCheap`
are the cell-4 constants (`COST_BUDGET = 50`, `NUM_INIT_DESIGN = 10`,
`NUM_CHEAP = 8`), kept abstract so the cadence property can be stated for
every `k ≥ 1`.

`minHse06Bandgap` is modelled from the spec: the name `min_hse06_bandgap`
is read by cell 9's convergence checks but defined nowhere in the provided
source; the spec describes it as the `ConvergenceTarget`, "an optional
known-optimal measurement value ... supplied at configuration time,
read-only thereafter". -/
structure Config where
  costBudget : ℚ
  numInitDesign : ℕ
  numCheap : ℕ
  minHse06Bandgap : ℚ
deriving DecidableEq, Repr

/-- The external `MultiFidelityPlanner`, as the notebook uses it:
`recommend` receives the fidelity set by `set_ask_fidelity` and the
campaign's observation history and proposes a batch of samples;
`recommendTarget` (`recommend_target_fidelity(batch_size=1)`) proposes a
greedy batch at the target fidelity.  `none` models a planner failure. -/
structure Planner where
  recommend : ℚ → List (Sample × ℚ) → Option (List Sample)
  recommendTarget : List (Sample × ℚ) → Option (List Sample)

/-- The mutable state of cell 9's loop: the accumulated cost `COST`, the
iteration counter `iter_`, the campaign's observation ledger, the
`target_rec_measurements` trace, and the loop-scoped Python variable
`measurement` (`none` while it has never been assigned). -/
structure LoopState where
  cost : ℚ
  iter : ℕ
  obs : List (Sample × ℚ)
  trace : List ℚ
  lastM : Option ℚ
deriving DecidableEq, Repr

/-- The state before the loop: `COST = 0.`, `iter_ = 0`, a fresh campaign
with no observations, `target_rec_measurements = []`, and `measurement`
not yet bound. -/
def initState : LoopState :=
  { cost := 0, iter := 0, obs := [], trace := [], lastM := none }

/-- How a pass of the loop body can fail: the planner raising
(`PlannerError`), the oracle raising inside `measure`, the `NameError`
from reading the never-assigned `measurement` in the init-design branch,
and the `IndexError` from `samples[0]` / `[0]` on an empty list. -/
inductive RunError where
  | plannerError
  | oracleError (e : MeasureErr)
  | nameError
  | indexError
deriving DecidableEq, Repr

/-- Result of one pass of the while-loop body: fall through to the next
guard test, `break` out on convergence, or abort with an exception.  Each
carries the state at that point. -/
inductive StepResult where
  | cont (st : LoopState)
  | converged (st : LoopState)
  | failed (e : RunError) (st : LoopState)
deriving DecidableEq, Repr

/-- The state a `StepResult` carries. -/
def StepResult.state : StepResult → LoopState
  | .cont st => st
  | .converged st => st
  | .failed _ st => st

/-- Cell 9's inner `for sample in samples:` loop.  Each sample is measured,
then appended to the campaign ledger with its measurement, and `iter_` is
incremented; the Python variable `measurement` is left holding the last
measured value.  A raising `measure` aborts mid-batch:`(st, some e)`
returns the state with the already-committed prefix.  Note that, exactly
as in the source, `COST` is not touched. -/
def processSamples (mf : Sample → ℚ → Except MeasureErr ℚ) :
    List Sample → LoopState → LoopState × Option MeasureErr
  | [], st => (st, none)
  | sample :: rest, st =>
    match mf sample sample.s with
    | .error e => (st, some e)
    | .ok m =>
      processSamples mf rest
        { st with
          obs := st.obs ++ [(sample, m)]
          iter := st.iter + 1
          lastM := some m }

/-- The fidelity `set_ask_fidelity` receives for iteration counter `i` and
cadence `k` (`NUM_CHEAP`):

```python
if iter_ % NUM_CHEAP == 0:
    planner.set_ask_fidelity(1.0)
else:
    planner.set_ask_fidelity(0.1)
``` -/
def askFidelity (i k : ℕ) : ℚ :=
  if i % k = 0 then 1 else qTenth

/-- The steady-state branch (`campaign.num_obs > NUM_INIT_DESIGN`):

```python
rec_sample = planner.recommend_target_fidelity(batch_size=1)[0]
rec_measurement = measure(rec_sample, rec_sample.s)
target_rec_measurements.append(rec_measurement)
if rec_measurement == min_hse06_bandgap:
    break
``` -/
def steadyCheck (cfg : Config) (pl : Planner)
    (mf : Sample → ℚ → Except MeasureErr ℚ) (st : LoopState) : StepResult :=
  match pl.recommendTarget st.obs with
  | none => .failed .plannerError st
  | some [] => .failed .indexError st
  | some (rec :: _) =>
    match mf rec rec.s with
    | .error e => .failed (.oracleError e) st
    | .ok rm =>
      let st2 := { st with trace := st.trace ++ [rm] }
      if rm = cfg.minHse06Bandgap then .converged st2 else .cont st2

/-- The init-design branch (the `else` of `campaign.num_obs > NUM_INIT_DESIGN`):

```python
target_rec_measurements.append(measurement)
if measurement == min_hse06_bandgap and samples[0].s == 1.:
    break
```

Reading `measurement` when it has never been assigned raises a `NameError`
(the variable is only bound inside the for-loop body); Python's `and`
short-circuits, so `samples[0]` is only evaluated — and can only raise an
`IndexError` on an empty batch — when the equality test passed. -/
def initCheck (cfg : Config) (samples : List Sample) (st : LoopState) :
    StepResult :=
  match st.lastM with
  | none => .failed .nameError st
  | some m =>
    let st2 := { st with trace := st.trace ++ [m] }
    if m = cfg.minHse06Bandgap then
      match samples with
      | [] => .failed .indexError st2
      | s0 :: _ => if s0.s = 1 then .converged st2 else .cont st2
    else
      .cont st2

/-- One pass of cell 9's while-loop body: choose the ask fidelity from the
iteration counter, ask the planner for a batch, measure and record every
sample of the batch, then run the steady-state or init-design check
depending on whether `campaign.num_obs > NUM_INIT_DESIGN`. -/
def loopBody (cfg : Config) (pl : Planner)
    (mf : Sample → ℚ → Except MeasureErr ℚ) (st : LoopState) : StepResult :=
  match pl.recommend (askFidelity st.iter cfg.numCheap) st.obs with
  | none => .failed .plannerError st
  | some samples =>
    match processSamples mf samples st with
    | (st1, some e) => .failed (.oracleError e) st1
    | (st1, none) =>
      if st1.obs.length > cfg.numInitDesign then steadyCheck cfg pl mf st1
      else initCheck cfg samples st1

/-- How a run of the whole loop can end within a given amount of fuel:
still `running` (the fuel ran out with the guard still true), the guard
`COST < COST_BUDGET` became false (`budgetExhausted`), a `break` on
convergence, or an exception. -/
inductive RunResult where
  | running (st : LoopState)
  | budgetExhausted (st : LoopState)
  | converged (st : LoopState)
  | failed (e : RunError) (st : LoopState)
deriving DecidableEq, Repr

/-- The state a `RunResult` carries. -/
def RunResult.state : RunResult → LoopState
  | .running st => st
  | .budgetExhausted st => st
  | .converged st => st
  | .failed _ st => st

/-- Whether the run is still going when the fuel ran out. -/
def RunResult.isRunning : RunResult → Bool
  | .running _ => true
  | _ => false

/-- Cell 9's `while COST < COST_BUDGET:` loop, on fuel: the guard is
tested before each pass, and a `fuel`-pass budget of the while-body is
available.  `running` is returned only when the fuel is exhausted with the
guard still true. -/
def run (cfg : Config) (pl : Planner)
    (mf : Sample → ℚ → Except MeasureErr ℚ) :
    ℕ → LoopState → RunResult
  | 0, st =>
    if st.cost < cfg.costBudget then .running st else .budgetExhausted st
  | n + 1, st =>
    if st.cost < cfg.costBudget then
      match loopBody cfg pl mf st with
      | .cont st2 => run cfg pl mf n st2
      | .converged st2 => .converged st2
      | .failed e st2 => .failed e st2
    else
      .budgetExhausted st

/-- The configuration errors the spec's controller raises at construction
time. -/
inductive ConfigurationError where
  | invalidCadence
  | emptyFidelitySet
  | negativeBudget
deriving DecidableEq, Repr

/-- A validated controller configuration: the cadence, the fidelity set and
the cost budget. -/
structure ControllerConfig where
  cadence : ℤ
  fidelities : List ℚ
  costBudget : ℚ
deriving DecidableEq, Repr

/-- Modelled from the spec: construction-time validation of the controller
configuration.  No construction-time validation appears in the provided
source — cell 4 only declares the constants — so this follows the spec's
error-handling table: "`ConfigurationError` | Invalid cadence (`k < 1`),
empty fidelity set, or negative budget | Raised at construction, before any
iteration runs".  A raised error is an `Except.error`: no `ControllerConfig`
is produced, so no loop can be started from it. -/
def mkController (k : ℤ) (fidelities : List ℚ) (budget : ℚ) :
    Except ConfigurationError ControllerConfig :=
  if k < 1 then .error .invalidCadence
  else if fidelities = [] then .error .emptyFidelitySet
  else if budget < 0 then .error .negativeBudget
  else .ok { cadence := k, fidelities := fidelities, costBudget := budget }

/-- Whether a construction attempt raised a `ConfigurationError`. -/
def raisesConfigError (r : Except ConfigurationError ControllerConfig) : Bool :=
  match r with
  | .error _ => true
  | .ok _ => false

/-! ## Concrete fixtures

The spec's example configuration: `COST_BUDGET = 50`, `NUM_INIT_DESIGN = 10`,
`NUM_CHEAP = 8`, `ConvergenceTarget = 0.8`; and small deterministic planner
and oracle stubs with a finite domain, used to evaluate the loop on the
spec's scenarios. -/

/-- The notebook's configuration values, with the spec's example
`ConvergenceTarget = 0.8`. -/
def cfgA : Config :=
  { costBudget := 50, numInitDesign := 10, numCheap := 8, minHse06Bandgap := qFourFifths }

/-- A sample at fidelity `q` over a fixed parameter assignment. -/
def sampleAt (q : ℚ) : Sample :=
  { s := q, organic := "a", cation := "b", anion := "c" }

/-- A deterministic planner stub over a finite domain: `recommend` proposes
one sample at the asked fidelity, `recommend_target_fidelity` proposes one
sample at the target fidelity `1.0`. -/
def pl0 : Planner :=
  { recommend := fun fid _ => some [sampleAt fid]
    recommendTarget := fun _ => some [sampleAt 1] }

/-- A deterministic oracle stub: every measurement is `2`, which differs
from `cfgA`'s convergence target `0.8`, so convergence never fires. -/
def mf0 : Sample → ℚ → Except MeasureErr ℚ := fun _ _ => .ok 2

/-! ## Helper lemmas -/

/-- The inner for-loop never changes `COST` (there is no statement in its
body that touches it). -/
theorem processSamples_cost (mf : Sample → ℚ → Except MeasureErr ℚ)
    (samples : List Sample) (st : LoopState) :
    (processSamples mf samples st).1.cost = st.cost := by
  induction samples generalizing st with
  | nil => rfl
  | cons s rest ih =>
    unfold processSamples
    cases h : mf s s.s with
    | error e => simp
    | ok m => simpa using ih _

/-- The steady-state check never changes `COST`, the observation ledger,
the iteration counter or the `measurement` variable. -/
theorem steadyCheck_frame (cfg : Config) (pl : Planner)
    (mf : Sample → ℚ → Except MeasureErr ℚ) (st : LoopState) :
    (steadyCheck cfg pl mf st).state.cost = st.cost ∧
    (steadyCheck cfg pl mf st).state.obs = st.obs ∧
    (steadyCheck cfg pl mf st).state.iter = st.iter ∧
    (steadyCheck cfg pl mf st).state.lastM = st.lastM := by
  unfold steadyCheck
  split
  · simp [StepResult.state]
  · simp [StepResult.state]
  · split
    · simp [StepResult.state]
    · split <;> simp [StepResult.state]

/-- The init-design check never changes `COST`, the observation ledger,
the iteration counter or the `measurement` variable. -/
theorem initCheck_frame (cfg : Config) (samples : List Sample)
    (st : LoopState) :
    (initCheck cfg samples st).state.cost = st.cost ∧
    (initCheck cfg samples st).state.obs = st.obs ∧
    (initCheck cfg samples st).state.iter = st.iter ∧
    (initCheck cfg samples st).state.lastM = st.lastM := by
  unfold initCheck
  split
  · simp [StepResult.state]
  · split
    · split
      · simp [StepResult.state]
      · split <;> simp [StepResult.state]
    · simp [StepResult.state]

/-- No pass of the loop body ever changes `COST`: the source contains no
assignment to `COST` after its initialisation to `0.`. -/
theorem loopBody_cost (cfg : Config) (pl : Planner)
    (mf : Sample → ℚ → Except MeasureErr ℚ) (st : LoopState) :
    (loopBody cfg pl mf st).state.cost = st.cost := by
  unfold loopBody
  split
  · simp [StepResult.state]
  · rename_i samples heq0
    split
    · rename_i st1 e heq
      have h := processSamples_cost mf samples st
      rw [heq] at h
      simpa [StepResult.state] using h
    · rename_i st1 heq
      have h := processSamples_cost mf samples st
      rw [heq] at h
      split
      · rw [(steadyCheck_frame cfg pl mf st1).1]
        simpa using h
      · rw [(initCheck_frame cfg samples st1).1]
        simpa using h

/-- The state transformation a single pass of the loop performs under the
`pl0`/`mf0` stubs: one sample at the asked fidelity is measured (always `2`)
and recorded, the iteration counter advances, the trace gains the entry `2`
(from the steady-state or the init-design branch alike), and — as in the
source — the cost is untouched. -/
def next0 (st : LoopState) : LoopState :=
  { cost := st.cost
    iter := st.iter + 1
    obs := st.obs ++ [(sampleAt (askFidelity st.iter 8), 2)]
    trace := st.trace ++ [2]
    lastM := some 2 }

/-- Under the `pl0`/`mf0` stubs every pass of the loop body falls through
to the next guard test with state `next0 st`: the measurement `2` never
equals the convergence target `0.8`, so neither branch breaks. -/
theorem loopBody_pl0 (st : LoopState) :
    loopBody cfgA pl0 mf0 st = .cont (next0 st) := by
  have h2 : ¬ ((2:ℚ) = qFourFifths) := by decide
  simp only [loopBody, pl0, mf0, processSamples, steadyCheck, initCheck,
    cfgA, next0]
  split
  · simp [h2]
  · simp [h2]

/-- Under the `pl0`/`mf0` stubs, any amount of fuel leaves the loop still
running: the guard `COST < COST_BUDGET` never becomes false because no pass
changes the cost, and no pass converges or fails. -/
theorem run_pl0 (n : ℕ) : ∀ st, st.cost = 0 →
    run cfgA pl0 mf0 n st = .running (next0^[n] st) := by
  induction n with
  | zero =>
    intro st h
    unfold run
    rw [if_pos (by rw [h]; decide)]
    simp
  | succ n ih =>
    intro st h
    unfold run
    rw [if_pos (by rw [h]; decide), loopBody_pl0]
    show run cfgA pl0 mf0 n (next0 st) = _
    rw [ih (next0 st) (by simp [next0, h]), Function.iterate_succ_apply]

/-- Iterating `next0` preserves the cost and adds one observation and one
iteration per pass. -/
theorem next0_iterate_facts (n : ℕ) (st : LoopState) :
    (next0^[n] st).cost = st.cost ∧
    (next0^[n] st).obs.length = st.obs.length + n ∧
    (next0^[n] st).iter = st.iter + n := by
  induction n with
  | zero => simp
  | succ n ih =>
    rw [Function.iterate_succ_apply']
    refine ⟨by simp [next0, ih.1], ?_, ?_⟩
    · simp [next0, ih.2.1]
      omega
    · simp [next0, ih.2.2]
      omega

/-! ## Claim theorems -/

/-- Claim C1.  The claim says each appended observation increments the
accumulated cost by the fidelity-dependent unit cost, with ledger `= 17`
after iteration 7 of the scenario (budget 50, cadence 8, costs 1/10).  The
source's loop body contains no assignment to `COST` at all: running the
scenario's first 8 passes (iterations 0 through 7, one observation each)
leaves the accumulated cost at `0`, not `17`, and no pass of the loop body
can ever change the cost, for any configuration, planner, oracle or state. -/
theorem claim1_cost_never_incremented :
    (run cfgA pl0 mf0 8 initState).state.obs.length = 8 ∧
    (run cfgA pl0 mf0 8 initState).state.iter = 8 ∧
    (run cfgA pl0 mf0 8 initState).state.cost = 0 ∧
    (run cfgA pl0 mf0 8 initState).state.cost ≠ 17 ∧
    ∀ cfg pl mf st, (loopBody cfg pl mf st).state.cost = st.cost := by
  rw [run_pl0 8 initState rfl]
  have hf := next0_iterate_facts 8 initState
  refine ⟨?_, ?_, ?_, ?_, loopBody_cost⟩
  · simpa [initState, RunResult.state] using hf.2.1
  · simpa [initState, RunResult.state] using hf.2.2
  · simpa [initState, RunResult.state] using hf.1
  · show (next0^[8] initState).cost ≠ 17
    rw [hf.1]
    norm_num [initState]

/-- Claim C2.  The claim says every run with a finite oracle domain and
non-zero per-query cost terminates with either cost `≥` budget or
convergence.  Because the source never increments `COST`, the guard
`COST < COST_BUDGET` can never become false: under the deterministic
finite-domain stubs `pl0`/`mf0` (whose measurement `2` never matches the
convergence target) the loop is still running after every amount of fuel —
it runs unboundedly. -/
theorem claim2_loop_never_terminates :
    ∀ n : ℕ, (run cfgA pl0 mf0 n initState).isRunning = true := by
  intro n
  rw [run_pl0 n initState rfl]
  rfl

/-- Claim C4: for every iteration index `i` and cadence `k ≥ 1`, the loop
asks for the high fidelity `1.0` exactly when `i mod k = 0` and for the low
fidelity `0.1` otherwise; `askFidelity` is a pure function of the iteration
index and the cadence alone. -/
theorem claim4_fidelity_cadence (i k : ℕ) (_hk : 1 ≤ k) :
    (askFidelity i k = 1 ↔ i % k = 0) ∧
    (askFidelity i k = 1/10 ↔ ¬ i % k = 0) := by
  have hne : (1 : ℚ) ≠ qTenth := by decide
  have hne2 : (qTenth : ℚ) ≠ 1 := by decide
  rw [← qTenth_eq_div]
  unfold askFidelity
  by_cases h : i % k = 0 <;> simp [h, hne, hne2]

/-- Witness for C4 at `i = 8`, `k = 8`: a cadence-8 loop asks high fidelity
again at iteration 8. -/
theorem claim4_witness :
    (askFidelity 8 8 = 1 ↔ 8 % 8 = 0) ∧
    (askFidelity 8 8 = 1/10 ↔ ¬ 8 % 8 = 0) :=
  claim4_fidelity_cadence 8 8 (by decide)

/-- Claim C8: construction of the controller configuration raises a
`ConfigurationError` exactly for an invalid cadence (`k < 1`), an empty
fidelity set, or a negative budget; a raised error yields no
`ControllerConfig`, so no loop iteration can run from it.  (The validation
itself is modelled from the spec: the provided source declares the
configuration constants without validating them.) -/
theorem claim8_configuration_validation (k : ℤ) (fids : List ℚ) (budget : ℚ) :
    raisesConfigError (mkController k fids budget) = true ↔
      (k < 1 ∨ fids = [] ∨ budget < 0) := by
  unfold mkController raisesConfigError
  split_ifs with h1 h2 h3
  · simp [h1]
  · simp [h2]
  · simp [h3]
  · simp [h1, h2, h3]

/-- A small lookup table for evaluating `measure` concretely. -/
def lookup0 : String → String → String → Option LookupEntry := fun a b c =>
  if a = "A" ∧ b = "b" ∧ c = "c" then
    some { bandgap_hse06 := [2, 3], bandgap_gga := [1, 4] }
  else none

/-- Claim C10: `measure` can return a measurement only for fidelity `1.0`
(the minimum of the HSE06 bandgap array of the looked-up entry) or `0.1`
(the minimum of the GGA bandgap array); for every other fidelity neither
branch assigns `measurement` and the function raises `UnboundLocalError`
instead of returning. -/
theorem claim10_measure_fidelity_branches
    (lookup : String → String → String → Option LookupEntry)
    (params : Sample) (s : ℚ) :
    ((∃ v, measure lookup params s = .ok v) → s = 1 ∨ s = 1/10) ∧
    (s ≠ 1 → s ≠ 1/10 → measure lookup params s = .error .unboundLocalError) ∧
    (∀ v, measure lookup params 1 = .ok v →
      ∃ entry,
        lookup (pyCapitalize params.organic) params.cation params.anion =
          some entry ∧ entry.bandgap_hse06.min? = some v) ∧
    (∀ v, measure lookup params (1/10) = .ok v →
      ∃ entry,
        lookup (pyCapitalize params.organic) params.cation params.anion =
          some entry ∧ entry.bandgap_gga.min? = some v) := by
  have hq1 : (qTenth : ℚ) ≠ 1 := by decide
  rw [← qTenth_eq_div]
  refine ⟨?_, ?_, ?_, ?_⟩
  · rintro ⟨v, hv⟩
    by_cases h1 : s = 1
    · exact Or.inl h1
    · by_cases h2 : s = qTenth
      · exact Or.inr h2
      · exfalso
        unfold measure at hv
        rw [if_neg h1, if_neg h2] at hv
        simp at hv
  · intro h1 h2
    unfold measure
    rw [if_neg h1, if_neg h2]
  · intro v hv
    unfold measure at hv
    rw [if_pos rfl] at hv
    split at hv
    · simp at hv
    · rename_i entry hl
      split at hv
      · simp at hv
      · rename_i w hm
        simp only [Except.ok.injEq] at hv
        exact ⟨entry, hl, by rw [hm, hv]⟩
  · intro v hv
    unfold measure at hv
    rw [if_neg hq1, if_pos rfl] at hv
    split at hv
    · simp at hv
    · rename_i entry hl
      split at hv
      · simp at hv
      · rename_i w hm
        simp only [Except.ok.injEq] at hv
        exact ⟨entry, hl, by rw [hm, hv]⟩

/-- Witness for C10: at fidelity `5`, which is neither `1.0` nor `0.1`,
`measure` over the concrete table raises `UnboundLocalError`. -/
theorem claim10_witness :
    measure lookup0 (sampleAt 1) 5 = .error .unboundLocalError :=
  (claim10_measure_fidelity_branches lookup0 (sampleAt 1) 5).2.1
    (by norm_num) (by norm_num)


/-- A planner stub for exercising the steady-state branch: `recommend`
returns an empty batch and `recommend_target_fidelity` proposes one sample
at the target fidelity. -/
def plW : Planner :=
  { recommend := fun _ _ => some []
    recommendTarget := fun _ => some [sampleAt 1] }

/-- An oracle stub whose every measurement equals the convergence target
`0.8`. -/
def mfW : Sample → ℚ → Except MeasureErr ℚ := fun _ _ => .ok qFourFifths

/-- A mid-run state with 11 recorded observations — strictly more than
`NUM_INIT_DESIGN = 10` — and untouched cost `0`. -/
def stW : LoopState :=
  { cost := 0, iter := 0, obs := List.replicate 11 (sampleAt 1, 2),
    trace := [], lastM := some 2 }

/-- Claim C3: whenever a pass reaches the steady-state convergence check
(observation count exceeding the initial-design count after the batch) and
the greedy target-fidelity recommendation measures exactly the convergence
target, the pass breaks out `converged`; no hypothesis constrains the
accumulated cost, so this holds regardless of how much budget remains, and
the whole loop returns `converged` on such a pass. -/
theorem claim3_target_match_converges (cfg : Config) (pl : Planner)
    (mf : Sample → ℚ → Except MeasureErr ℚ) (st st1 : LoopState)
    (samples : List Sample) (r : Sample) (rest : List Sample)
    (h1 : pl.recommend (askFidelity st.iter cfg.numCheap) st.obs = some samples)
    (h2 : processSamples mf samples st = (st1, none))
    (h3 : st1.obs.length > cfg.numInitDesign)
    (h4 : pl.recommendTarget st1.obs = some (r :: rest))
    (h5 : mf r r.s = .ok cfg.minHse06Bandgap) :
    loopBody cfg pl mf st =
      .converged { st1 with trace := st1.trace ++ [cfg.minHse06Bandgap] } ∧
    ∀ n, st.cost < cfg.costBudget →
      run cfg pl mf (n + 1) st =
        .converged { st1 with trace := st1.trace ++ [cfg.minHse06Bandgap] } := by
  have hb : loopBody cfg pl mf st =
      .converged { st1 with trace := st1.trace ++ [cfg.minHse06Bandgap] } := by
    simp only [loopBody, h1, h2, if_pos h3, steadyCheck, h4, h5]
    simp
  refine ⟨hb, ?_⟩
  intro n hg
  unfold run
  rw [if_pos hg, hb]

/-- Witness for C3: from a state with 11 observations and the full budget
remaining (`cost 0 < 50`), a target-fidelity recommendation measuring
`0.8` makes the loop return `converged`. -/
theorem claim3_witness :
    stW.cost < cfgA.costBudget ∧
    run cfgA plW mfW 1 stW =
      .converged { stW with trace := stW.trace ++ [cfgA.minHse06Bandgap] } :=
  ⟨by decide,
    (claim3_target_match_converges cfgA plW mfW stW stW [] (sampleAt 1) []
      rfl rfl (by decide) rfl rfl).2 0 (by decide)⟩

/-- A sample outside the lookup table's domain. -/
def sBad : Sample := { s := 1, organic := "x", cation := "y", anion := "z" }

/-- A planner stub returning a two-sample batch whose second sample is
outside the oracle's domain. -/
def pl5 : Planner :=
  { recommend := fun _ _ => some [sampleAt 1, sBad]
    recommendTarget := fun _ => none }

/-- An oracle stub: measures `sampleAt 1` as `2`, raises a lookup error on
everything else. -/
def mf5 : Sample → ℚ → Except MeasureErr ℚ := fun smp _ =>
  if smp = sampleAt 1 then .ok 2 else .error .lookupError

/-- The state in which the C5 failing pass aborts. -/
def st5 : LoopState :=
  { cost := 0, iter := 1, obs := [(sampleAt 1, 2)], trace := [], lastM := some 2 }

/-- Claim C5 (code bug evidence): when the oracle fails on the second
sample of a batch, the loop aborts and the ledger retains exactly the
fully measured observations committed before the failure — but the
cost ledger is still `0`: the recorded observation has its paired
measurement yet no paired cost update, because the source never updates
`COST` for any committed observation. -/
theorem claim5_commit_without_cost_update :
    loopBody cfgA pl5 mf5 initState = .failed (.oracleError .lookupError) st5 ∧
    st5.obs.length = 1 ∧
    st5.cost = 0 := by decide

/-- A planner stub returning, during the initial-design phase, a batch of
a high-fidelity sample followed by a low-fidelity sample. -/
def pl6 : Planner :=
  { recommend := fun _ _ => some [sampleAt 1, sampleAt qTenth]
    recommendTarget := fun _ => none }

/-- An oracle stub measuring high-fidelity samples as `2` and low-fidelity
samples as the convergence target `0.8`. -/
def mf6 : Sample → ℚ → Except MeasureErr ℚ := fun smp _ =>
  if smp.s = 1 then .ok 2 else .ok qFourFifths

/-- The state in which the C6 counterexample pass converges. -/
def st6 : LoopState :=
  { cost := 0, iter := 2, obs := [(sampleAt 1, 2), (sampleAt qTenth, qFourFifths)],
    trace := [qFourFifths], lastM := some qFourFifths }

/-- Counterexample to C6 as stated: on an initial-design pass (2 ≤ 10
observations) the just-recorded measurement comes from the batch's *last*
sample, whose fidelity is the low `0.1`, yet the pass converges — because
the source gates the check on `samples[0].s`, the *first* sample's
fidelity, which here is `1.0`.  So a low-fidelity sample does trigger
convergence during the initial-design phase. -/
theorem claim6_counterexample :
    loopBody cfgA pl6 mf6 initState = .converged st6 ∧
    st6.obs.getLast?.map (fun o => o.1.s) = some qTenth ∧
    ¬ (qTenth = 1) ∧
    st6.obs.length ≤ cfgA.numInitDesign := by decide

/-- The state after `pl0`/`mf0` process the first one-sample batch from
`initState`. -/
def stInit1 : LoopState :=
  { cost := 0, iter := 1, obs := [(sampleAt 1, 2)], trace := [], lastM := some 2 }

/-- Claim C6 as amended: while the post-batch observation count is at most
the initial-design count, the pass runs `initCheck` — which never invokes
the planner's greedy target-fidelity recommendation (`initCheck` does not
even receive the planner) — appends the just-recorded measurement to the
target-recommendation trace, and converges exactly when that measurement
equals the target AND the batch's *first* sample (not necessarily the
just-recorded one) has the highest fidelity; the steady-state branch
(`steadyCheck`) runs exactly when the count strictly exceeds the
initial-design count. -/
theorem claim6_amended_init_phase (cfg : Config) (pl : Planner)
    (mf : Sample → ℚ → Except MeasureErr ℚ) (st st1 : LoopState)
    (s0 : Sample) (rest : List Sample) (m : ℚ)
    (h1 : pl.recommend (askFidelity st.iter cfg.numCheap) st.obs =
      some (s0 :: rest))
    (h2 : processSamples mf (s0 :: rest) st = (st1, none))
    (h4 : st1.lastM = some m) :
    (st1.obs.length ≤ cfg.numInitDesign →
      loopBody cfg pl mf st = initCheck cfg (s0 :: rest) st1 ∧
      loopBody cfg pl mf st =
        (if m = cfg.minHse06Bandgap ∧ s0.s = 1
         then .converged { st1 with trace := st1.trace ++ [m] }
         else .cont { st1 with trace := st1.trace ++ [m] })) ∧
    (st1.obs.length > cfg.numInitDesign →
      loopBody cfg pl mf st = steadyCheck cfg pl mf st1) := by
  have hbody : loopBody cfg pl mf st =
      if st1.obs.length > cfg.numInitDesign then steadyCheck cfg pl mf st1
      else initCheck cfg (s0 :: rest) st1 := by
    simp only [loopBody, h1, h2]
  constructor
  · intro hle
    have hnot : ¬ st1.obs.length > cfg.numInitDesign := by omega
    rw [hbody, if_neg hnot]
    refine ⟨rfl, ?_⟩
    unfold initCheck
    rw [h4]
    by_cases hm : m = cfg.minHse06Bandgap
    · by_cases hs : s0.s = 1
      · simp [hm, hs]
      · simp [hm, hs]
    · simp [hm]
  · intro hgt
    rw [hbody, if_pos hgt]

/-- Witness for the amended C6 on the scenario's first pass: one recorded
observation (≤ 10), no greedy recommendation, trace entry `2`, no
convergence since `2 ≠ 0.8`. -/
theorem claim6_amended_witness :
    loopBody cfgA pl0 mf0 initState = initCheck cfgA [sampleAt 1] stInit1 ∧
    loopBody cfgA pl0 mf0 initState =
      (if (2:ℚ) = cfgA.minHse06Bandgap ∧ (sampleAt 1).s = 1
       then .converged { stInit1 with trace := stInit1.trace ++ [(2:ℚ)] }
       else .cont { stInit1 with trace := stInit1.trace ++ [(2:ℚ)] }) :=
  (claim6_amended_init_phase cfgA pl0 mf0 initState stInit1 (sampleAt 1) [] 2
    rfl rfl rfl).1 (by decide)

/-- Claim C7: a steady-state pass's greedy target-fidelity measurement is
recorded only in the separate target-recommendation trace; relative to the
post-batch state, the main observation ledger, the accumulated cost, the
iteration counter and the `measurement` variable are all unchanged — no
cost is double-counted (indeed none is counted at all). -/
theorem claim7_greedy_rec_changes_only_trace (cfg : Config) (pl : Planner)
    (mf : Sample → ℚ → Except MeasureErr ℚ) (st st1 : LoopState)
    (samples : List Sample) (r : Sample) (rest : List Sample) (rm : ℚ)
    (h1 : pl.recommend (askFidelity st.iter cfg.numCheap) st.obs = some samples)
    (h2 : processSamples mf samples st = (st1, none))
    (h3 : st1.obs.length > cfg.numInitDesign)
    (h4 : pl.recommendTarget st1.obs = some (r :: rest))
    (h5 : mf r r.s = .ok rm) :
    (loopBody cfg pl mf st).state.obs = st1.obs ∧
    (loopBody cfg pl mf st).state.cost = st1.cost ∧
    (loopBody cfg pl mf st).state.iter = st1.iter ∧
    (loopBody cfg pl mf st).state.lastM = st1.lastM ∧
    (loopBody cfg pl mf st).state.trace = st1.trace ++ [rm] := by
  have hb : loopBody cfg pl mf st = steadyCheck cfg pl mf st1 := by
    simp only [loopBody, h1, h2, if_pos h3]
  rw [hb]
  simp only [steadyCheck, h4, h5]
  by_cases hc : rm = cfg.minHse06Bandgap <;> simp [hc, StepResult.state]

/-- Witness for C7 on the concrete steady-state pass of `claim3_witness`'s
fixtures: ledger and cost unchanged, trace extended by the recommendation's
measurement `0.8`. -/
theorem claim7_witness :
    (loopBody cfgA plW mfW stW).state.obs = stW.obs ∧
    (loopBody cfgA plW mfW stW).state.cost = stW.cost ∧
    (loopBody cfgA plW mfW stW).state.iter = stW.iter ∧
    (loopBody cfgA plW mfW stW).state.lastM = stW.lastM ∧
    (loopBody cfgA plW mfW stW).state.trace = stW.trace ++ [qFourFifths] :=
  claim7_greedy_rec_changes_only_trace cfgA plW mfW stW stW [] (sampleAt 1) []
    qFourFifths rfl rfl (by decide) rfl rfl

/-- A successful non-empty inner for-loop leaves the Python `measurement`
variable holding the measurement of the batch's last committed
observation. -/
theorem processSamples_ok_lastM (mf : Sample → ℚ → Except MeasureErr ℚ) :
    ∀ (samples : List Sample) (st0 st1 : LoopState), samples ≠ [] →
      processSamples mf samples st0 = (st1, none) →
      st1.obs.getLast?.map (fun o => o.2) = st1.lastM := by
  intro samples
  induction samples with
  | nil => intro st0 st1 hne; exact absurd rfl hne
  | cons s0 ss ih =>
    intro st0 st1 _hne h
    unfold processSamples at h
    cases hmf : mf s0 s0.s with
    | error e => rw [hmf] at h; simp at h
    | ok m =>
      rw [hmf] at h
      by_cases hss : ss = []
      · subst hss
        unfold processSamples at h
        have h5 := congrArg Prod.fst h
        simp only [] at h5
        rw [← h5]
        simp [List.getLast?_concat]
      · exact ih _ _ hss h

/-- A planner stub that always returns an empty batch. -/
def plE : Planner :=
  { recommend := fun _ _ => some []
    recommendTarget := fun _ => none }

/-- Claim C9: when the planner returns an empty batch on a pass still in
the initial-design phase, the `else` branch reads the loop-scoped
`measurement`: on a first pass (never assigned, `lastM = none`) the read
fails with a `NameError`; on later passes it appends the stale value to
the trace — and by `processSamples_ok_lastM`-style reasoning (third
conjunct) that stale value is the measurement of a previous pass's last
batch element. -/
theorem claim9_empty_batch_scope_bug (cfg : Config) (pl : Planner)
    (mf : Sample → ℚ → Except MeasureErr ℚ) (st : LoopState)
    (h1 : pl.recommend (askFidelity st.iter cfg.numCheap) st.obs = some [])
    (h3 : st.obs.length ≤ cfg.numInitDesign) :
    (st.lastM = none → loopBody cfg pl mf st = .failed .nameError st) ∧
    (∀ m, st.lastM = some m →
      (loopBody cfg pl mf st).state.trace = st.trace ++ [m]) ∧
    (∀ (s0 : Sample) (ss : List Sample) (st0 st1 : LoopState),
      processSamples mf (s0 :: ss) st0 = (st1, none) →
      st1.obs.getLast?.map (fun o => o.2) = st1.lastM) := by
  have hbody : loopBody cfg pl mf st = initCheck cfg [] st := by
    simp only [loopBody, h1, processSamples]
    rw [if_neg (by omega)]
  refine ⟨?_, ?_, ?_⟩
  · intro hnone
    rw [hbody]
    simp only [initCheck, hnone]
  · intro m hm
    rw [hbody]
    simp only [initCheck, hm]
    by_cases hm2 : m = cfg.minHse06Bandgap <;> simp [hm2, StepResult.state]
  · intro s0 ss st0 st1 h
    exact processSamples_ok_lastM mf (s0 :: ss) st0 st1 (by simp) h

/-- Witness for C9: with a planner returning an empty batch on the very
first pass (observation count `0 ≤ 10`, `measurement` never assigned), the
loop fails with the `NameError`. -/
theorem claim9_witness :
    loopBody cfgA plE mf0 initState = .failed .nameError initState :=
  (claim9_empty_batch_scope_bug cfgA plE mf0 initState rfl (by decide)).1 rfl

end MultiFidelity
